import Mathlib

/-!
Shallow embedding of the matrimonial REST backend (src/index.js, first and
authoritative variant) and proofs about its claimed properties.

Modelling conventions:
* MongoDB collections are Lean lists; `insertOne` appends, `findOne` is
  `List.find?` (first match in natural order), `updateOne`/`replaceOne`
  update the first matching document.
* The case-insensitive email regex `^email$` with flag `i` used throughout
  the source matches a document iff the lowercased strings are equal; this
  is `emailEq` below, built on `lowerStr` (ASCII `toLowerCase`).
* BSON values that can be either an ObjectId or a plain string (the `_id`
  of members vs the string `biodata_id` of favourites) are `BsonId`; the
  `$lookup` / `findOne` equality between an ObjectId and a string is plain
  `BsonId` equality, which is false across the two constructors exactly as
  in MongoDB.
* `new Date()` timestamps are `Nat` parameters (`now`), supplied per call.
* Generated ObjectIds are `String` parameters (`newId`), supplied per call.
* The external image upload (`uploadImageToImgBB`) is a parameter
  `Option (Option String)`: `none` = no file in the request,
  `some none` = file present but the upload throws,
  `some (some url)` = upload succeeded with `url`.
* Handlers return `(statusCode, newState)`; read-only handlers return
  `(statusCode, payload)`.
* A field that MongoDB leaves absent (the upserted user document created
  through a `$regex` filter carries no `email`) is modelled as `""`/`none`/`0`.
-/

namespace Matrimonial

/-- ASCII lowercase of a character, as `String.prototype.toLowerCase`
behaves on ASCII input (`Char.toLower` maps `A`-`Z` to `a`-`z`). -/
def lowerStr (s : String) : String := String.mk (s.data.map Char.toLower)

/-- The source's case-insensitive email lookup
`{ email: { $regex: new RegExp('^' + e + '$', 'i') } }`:
a document matches iff the two strings agree up to ASCII case. -/
def emailEq (a b : String) : Bool := lowerStr a == lowerStr b

/-- A BSON identifier value: a real ObjectId or a plain string.
MongoDB equality across the two constructors is always false, which is
what `$lookup` and `findOne` use. -/
inductive BsonId where
  | oid (hex : String)
  | str (s : String)
deriving DecidableEq, Repr

/-- `ObjectId.isValid` / the `new ObjectId(s)` constructor requirement:
a 24-character hex string. -/
def isValidObjectId (s : String) : Bool :=
  s.length == 24 && s.data.all (fun c => c.isDigit || ('a' ≤ c && c ≤ 'f') || ('A' ≤ c && c ≤ 'F'))

/-- A document of the `users` collection. -/
structure User where
  name : String
  email : String
  photoURL : String
  role : String
  isPremium : Bool
  uid : Option String
  createdAt : Nat
  updatedAt : Nat
deriving DecidableEq, Repr

/-- A document of the `members` (biodata) collection. -/
structure Biodata where
  _id : BsonId
  biodataType : String
  name : String
  dob : String
  height : String
  weight : String
  age : Nat
  occupation : String
  race : String
  fatherName : String
  motherName : String
  permanentDivision : String
  presentDivision : String
  partnerAge : String
  partnerHeight : String
  partnerWeight : String
  contactEmail : String
  mobileNumber : String
  maritalStatus : String
  profileImage : String
  isPremium : Bool
  email : String
  createdAt : Nat
  updatedAt : Nat
deriving DecidableEq, Repr

/-- A document of the `contactRequests` collection. -/
structure ContactRequest where
  _id : String
  requesterEmail : String
  requestedBiodataId : String
  status : String
  createdAt : Nat
  approvedAt : Option Nat
  rejectedAt : Option Nat
deriving DecidableEq, Repr

/-- A document of the `favourites` collection
(`biodata_id` is validated to be a plain string by `POST /favourites`). -/
structure Favourite where
  userEmail : String
  biodata_id : String
  addedAt : Nat
deriving DecidableEq, Repr

/-- The whole store: the four collections the claims touch. -/
structure DB where
  users : List User
  members : List Biodata
  favourites : List Favourite
  contactRequests : List ContactRequest
deriving DecidableEq, Repr

/-- `updateOne`: applies `f` to the first element satisfying `p`,
leaves everything else unchanged. -/
def updateFirst (p : α → Bool) (f : α → α) : List α → List α
  | [] => []
  | x :: xs => if p x then f x :: xs else x :: updateFirst p f xs

/-- `usersCollection.findOne({email: ^e$/i})`. -/
def findUser (db : DB) (e : String) : Option User :=
  db.users.find? (fun u => emailEq u.email e)

/-- `membersCollection.findOne({_id: new ObjectId(id)})`. -/
def findMember (db : DB) (idStr : String) : Option Biodata :=
  db.members.find? (fun m => decide (m._id = BsonId.oid idStr))

/-- `contactRequestsCollection.findOne({_id: new ObjectId(id)})`
(request ids are stored and compared as their hex strings). -/
def findRequest (db : DB) (idStr : String) : Option ContactRequest :=
  db.contactRequests.find? (fun r => r._id == idStr)

/-- Whether the caller's stored user record has `role === 'admin'`
(the `authorizeAdmin` middleware / the inline admin checks). -/
def isAdminB (db : DB) (caller : String) : Bool :=
  ((findUser db caller).map (fun u => u.role == "admin")).getD false

/-- JS `a || b` for an optional string field of the request body against a
fallback (empty string is falsy). -/
def jsOrStr (a : Option String) (b : String) : String :=
  match a with
  | some s => if s = "" then b else s
  | none => b

/-- JS `b || c` on two strings. -/
def strOr (b c : String) : String := if b = "" then c else b

/-- JS `parseInt(a, 10) || b` where a failed parse is `none` and `0` is
falsy. -/
def jsOrNat (a : Option Nat) (b : Nat) : Nat :=
  match a with
  | some n => if n = 0 then b else n
  | none => b

/-- Request body of `POST /users`
(`{ name, photoURL, role, isPremium = false, targetEmail }`). -/
structure UserPayload where
  name : Option String := none
  photoURL : Option String := none
  role : Option String := none
  isPremium : Bool := false
  targetEmail : Option String := none
deriving DecidableEq, Repr

/-- The common tail of `POST /users` after `email`/`uid` are resolved:
`if (!email) 400`, duplicate check, insert. -/
def createUserInsert (db : DB) (email : Option String) (uid : Option String)
    (p : UserPayload) (now : Nat) : Nat × DB :=
  match email with
  | none => (400, db)
  | some e =>
    if e = "" then (400, db)
    else
      match db.users.find? (fun u => emailEq u.email (lowerStr e)) with
      | some _ => (409, db)
      | none =>
        let user : User :=
          { name := jsOrStr p.name "Unnamed User"
            email := lowerStr e
            photoURL := jsOrStr p.photoURL ""
            role := jsOrStr p.role "user"
            isPremium := p.isPremium
            uid := uid
            createdAt := now
            updatedAt := now }
        (201, { db with users := db.users ++ [user] })

/-- `POST /users` (after `authenticate`): `caller`/`callerUid` are the
verified identity; an admin may create a record for a different
`targetEmail`, in which case the stored `uid` is `null`. -/
def createUser (db : DB) (caller callerUid : String) (p : UserPayload)
    (now : Nat) : Nat × DB :=
  let tgt : Option String :=
    match p.targetEmail with
    | some t => if t = "" then none else some t
    | none => none
  let email : Option String :=
    match tgt with
    | some t => some (lowerStr t)
    | none => some caller
  match tgt with
  | some t =>
    if lowerStr t ≠ lowerStr caller then
      match findUser db caller with
      | some cu =>
        if cu.role ≠ "admin" then (403, db)
        else createUserInsert db email none p now
      | none => (403, db)
    else createUserInsert db email (some callerUid) p now
  | none => createUserInsert db email (some callerUid) p now

/-- `PATCH /users/:email/role` (after `authenticate`), including the
`authorizeAdmin` middleware: body `{ role }`, self-target forbidden. -/
def updateUserRole (db : DB) (caller targetParam : String)
    (role : Option String) (now : Nat) : Nat × DB :=
  match findUser db caller with
  | none => (403, db)
  | some cu =>
    if cu.role ≠ "admin" then (403, db)
    else
      let e := lowerStr targetParam
      if e = "" then (400, db)
      else
        match role with
        | none => (400, db)
        | some r =>
          if ¬(r = "admin" ∨ r = "user") then (400, db)
          else
            match findUser db e with
            | none => (404, db)
            | some _ =>
              if caller = e then (403, db)
              else
                let users := updateFirst (fun u => emailEq u.email e)
                  (fun u => { u with role := r, updatedAt := now }) db.users
                (200, { db with users := users })

/-- `PATCH /users/:email/premium` (after `authenticate` + `authorizeAdmin`):
sets `User.isPremium` and syncs the same value onto the owned biodata. -/
def setPremium (db : DB) (targetParam : String) (v : Bool) (now : Nat) :
    Nat × DB :=
  let e := lowerStr targetParam
  if e = "" then (400, db)
  else
    match findUser db e with
    | none => (404, db)
    | some _ =>
      let users := updateFirst (fun u => emailEq u.email e)
        (fun u => { u with isPremium := v, updatedAt := now }) db.users
      let members := updateFirst (fun m => emailEq m.email e)
        (fun m => { m with isPremium := v, updatedAt := now }) db.members
      (200, { db with users := users, members := members })

/-- The premium check of `POST /contact-requests` exactly as the handler
computes it: the caller's biodata `isPremium` if that is true, otherwise
fall back to the caller's user record, otherwise false. -/
def effectivePremium (db : DB) (email : String) : Bool :=
  let fromMembers :=
    ((db.members.find? (fun m => emailEq m.email email)).map Biodata.isPremium).getD false
  if fromMembers then true
  else ((findUser db email).map User.isPremium).getD false

/-- The duplicate check of `POST /contact-requests`:
`findOne({ requesterEmail, requestedBiodataId })`, an exact match on the
pair (the requester email is the already-lowercased verified identity). -/
def pairMatches (caller bid : String) (r : ContactRequest) : Bool :=
  r.requesterEmail == caller && r.requestedBiodataId == bid

/-- The `request` object inserted by `POST /contact-requests`. -/
def newRequest (newId caller bid : String) (now : Nat) : ContactRequest :=
  { _id := newId
    requesterEmail := caller
    requestedBiodataId := bid
    status := "pending"
    createdAt := now
    approvedAt := none
    rejectedAt := none }

/-- `POST /contact-requests` (after `authenticate`): premium gate, duplicate
check (exact match on the pair), insert with `status: 'pending'`. -/
def createContactRequest (db : DB) (caller bid newId : String) (now : Nat) :
    Nat × DB :=
  if bid = "" then (400, db)
  else if effectivePremium db caller = false then (403, db)
  else
    match db.contactRequests.find? (pairMatches caller bid) with
    | some _ => (400, db)
    | none =>
      (201, { db with contactRequests :=
        db.contactRequests ++ [newRequest newId caller bid now] })

/-- The `$set { status: 'approved', approvedAt: new Date() }` applied to
the first request matching the id. -/
def approveUpdate (idStr : String) (now : Nat) (l : List ContactRequest) :
    List ContactRequest :=
  updateFirst (fun r => r._id == idStr)
    (fun r => { r with status := "approved", approvedAt := some now }) l

/-- The `$set { status: 'rejected', rejectedAt: new Date() }` applied to
the first request matching the id. -/
def rejectUpdate (idStr : String) (now : Nat) (l : List ContactRequest) :
    List ContactRequest :=
  updateFirst (fun r => r._id == idStr)
    (fun r => { r with status := "rejected", rejectedAt := some now }) l

/-- `PATCH /contact-requests/:id/approve` (after `authenticate` +
`authorizeAdmin`): unconditionally sets `status: 'approved'` and
`approvedAt: new Date()` on the matched request (no pending guard);
`new ObjectId(id)` throws on an invalid id, caught as a 500. -/
def approveRequest (db : DB) (idStr : String) (now : Nat) : Nat × DB :=
  if isValidObjectId idStr = false then (500, db)
  else if (findRequest db idStr).isNone then (404, db)
  else (200, { db with contactRequests := approveUpdate idStr now db.contactRequests })

/-- `PATCH /contact-requests/:id/reject`: mirror image of approve. -/
def rejectRequest (db : DB) (idStr : String) (now : Nat) : Nat × DB :=
  if isValidObjectId idStr = false then (500, db)
  else if (findRequest db idStr).isNone then (404, db)
  else (200, { db with contactRequests := rejectUpdate idStr now db.contactRequests })

/-- The `.sort({ createdAt: -1 })` order relation. -/
def createdDesc (a b : ContactRequest) : Prop := b.createdAt ≤ a.createdAt

instance : DecidableRel createdDesc := fun a b => Nat.decLe b.createdAt a.createdAt

instance : IsTotal ContactRequest createdDesc := ⟨fun a b => Nat.le_total b.createdAt a.createdAt⟩

instance : IsTrans ContactRequest createdDesc :=
  ⟨fun _ _ _ h1 h2 => Nat.le_trans h2 h1⟩

/-- An entry of the `GET /my-contact-requests` response: the request itself,
plus — only when the join was performed — the `biodata` field, whose value
is the `findOne` result (`none` = field absent, `some none` = field present
but `null`). -/
structure EnrichedRequest where
  request : ContactRequest
  biodata : Option (Option Biodata)
deriving DecidableEq, Repr

/-- The per-entry enrichment of `GET /my-contact-requests`: approved
requests are joined with the referenced biodata, others returned as-is. -/
def enrichMine (db : DB) (r : ContactRequest) : EnrichedRequest :=
  if r.status == "approved" then
    { request := r
      biodata := some (db.members.find?
        (fun m => decide (m._id = BsonId.oid r.requestedBiodataId))) }
  else { request := r, biodata := none }

/-- `GET /my-contact-requests` (after `authenticate`):
`find({ requesterEmail: email }).sort({ createdAt: -1 })`, then the
approved entries are joined with their biodata; `new ObjectId` on a
malformed id throws inside the join and the whole request 500s. -/
def myContactRequests (db : DB) (caller : String) : Nat × List EnrichedRequest :=
  let reqs := List.insertionSort createdDesc
    (db.contactRequests.filter (fun r => r.requesterEmail == caller))
  if reqs.any (fun r => r.status == "approved" && !isValidObjectId r.requestedBiodataId)
  then (500, [])
  else (200, reqs.map (enrichMine db))

/-- Request body of `POST /biodatas` / `PATCH /biodatas/:id` (multipart
fields; absent fields are `none`). The handlers never read `email` or
`createdAt` from the body — both fields are present here to make that
explicit. -/
structure BiodataPayload where
  biodataType : Option String := none
  name : Option String := none
  dateOfBirth : Option String := none
  height : Option String := none
  weight : Option String := none
  age : Option Nat := none
  occupation : Option String := none
  race : Option String := none
  fatherName : Option String := none
  motherName : Option String := none
  permanentDivision : Option String := none
  presentDivision : Option String := none
  expectedPartnerAge : Option String := none
  expectedPartnerHeight : Option String := none
  expectedPartnerWeight : Option String := none
  contactEmail : Option String := none
  mobileNumber : Option String := none
  maritalStatus : Option String := none
  isPremium : Option Bool := none
  email : Option String := none
  createdAt : Option Nat := none
deriving DecidableEq, Repr

/-- `POST /biodatas` (after `authenticate`, multer single `profileImage`):
duplicate check, image upload (abort on failure), `isPremium` stamped from
the caller's user record, insert. -/
def createBiodata (db : DB) (caller : String) (p : BiodataPayload)
    (file : Option (Option String)) (newId : String) (now : Nat) : Nat × DB :=
  if caller = "" then (400, db)
  else
    match db.members.find? (fun m => emailEq m.email (lowerStr caller)) with
    | some _ => (400, db)
    | none =>
      match file with
      | none => (400, db)
      | some none => (500, db)
      | some (some url) =>
        let prem := ((findUser db caller).map User.isPremium).getD false
        let nb : Biodata :=
          { _id := BsonId.oid newId
            biodataType := jsOrStr p.biodataType ""
            name := jsOrStr p.name ""
            dob := jsOrStr p.dateOfBirth ""
            height := jsOrStr p.height ""
            weight := jsOrStr p.weight ""
            age := jsOrNat p.age 0
            occupation := jsOrStr p.occupation ""
            race := jsOrStr p.race ""
            fatherName := jsOrStr p.fatherName ""
            motherName := jsOrStr p.motherName ""
            permanentDivision := jsOrStr p.permanentDivision ""
            presentDivision := jsOrStr p.presentDivision ""
            partnerAge := jsOrStr p.expectedPartnerAge ""
            partnerHeight := jsOrStr p.expectedPartnerHeight ""
            partnerWeight := jsOrStr p.expectedPartnerWeight ""
            contactEmail := jsOrStr p.contactEmail (lowerStr caller)
            mobileNumber := jsOrStr p.mobileNumber ""
            maritalStatus := jsOrStr p.maritalStatus ""
            profileImage := url
            isPremium := prem
            email := lowerStr caller
            createdAt := now
            updatedAt := now }
        (201, { db with members := db.members ++ [nb] })

/-- The `profileImage` resolution of `PATCH /biodatas/:id`: a successful
upload replaces the URL; no file, or a failed upload (caught with a
warning), keeps the existing URL. -/
def updateImg (ex : Biodata) (file : Option (Option String)) : String :=
  match file with
  | some (some url) => url
  | _ => ex.profileImage

/-- The `isPremium` resolution of `PATCH /biodatas/:id`: an explicit body
value wins; otherwise the CALLER's user record is consulted (not the
biodata owner's), defaulting to false. -/
def resolvedPremium (db : DB) (caller : String) (p : BiodataPayload) : Bool :=
  match p.isPremium with
  | some b => b
  | none => ((findUser db caller).map User.isPremium).getD false

/-- The replacement document built by `PATCH /biodatas/:id`: every profile
field is `body || existing || ''`; `email` is the existing owner lowercased,
`createdAt` is `existing.createdAt || new Date()`; `_id` is kept by
`replaceOne`. -/
def buildUpdatedBiodata (ex : Biodata) (p : BiodataPayload) (img : String)
    (prem : Bool) (caller : String) (now : Nat) : Biodata :=
  { _id := ex._id
    biodataType := jsOrStr p.biodataType ex.biodataType
    name := jsOrStr p.name ex.name
    dob := jsOrStr p.dateOfBirth ex.dob
    height := jsOrStr p.height ex.height
    weight := jsOrStr p.weight ex.weight
    age := jsOrNat p.age ex.age
    occupation := jsOrStr p.occupation ex.occupation
    race := jsOrStr p.race ex.race
    fatherName := jsOrStr p.fatherName ex.fatherName
    motherName := jsOrStr p.motherName ex.motherName
    permanentDivision := jsOrStr p.permanentDivision ex.permanentDivision
    presentDivision := jsOrStr p.presentDivision ex.presentDivision
    partnerAge := jsOrStr p.expectedPartnerAge ex.partnerAge
    partnerHeight := jsOrStr p.expectedPartnerHeight ex.partnerHeight
    partnerWeight := jsOrStr p.expectedPartnerWeight ex.partnerWeight
    contactEmail := jsOrStr p.contactEmail (strOr ex.contactEmail (lowerStr caller))
    mobileNumber := jsOrStr p.mobileNumber ex.mobileNumber
    maritalStatus := jsOrStr p.maritalStatus ex.maritalStatus
    profileImage := img
    isPremium := prem
    email := lowerStr ex.email
    createdAt := if ex.createdAt = 0 then now else ex.createdAt
    updatedAt := now }

/-- The `$set {isPremium, updatedAt}` with `upsert: true` that
`PATCH /biodatas/:id` runs against the `users` collection, filtered by the
caller's email regex. When nothing matches, MongoDB's upsert inserts a
document that does NOT carry the `$regex`-filtered `email` field; absent
fields are modelled as `""`/`none`/`0`. -/
def upsertUserPremium (users : List User) (caller : String) (v : Bool)
    (now : Nat) : List User :=
  if users.any (fun u => emailEq u.email caller) then
    updateFirst (fun u => emailEq u.email caller)
      (fun u => { u with isPremium := v, updatedAt := now }) users
  else
    users ++ [{ name := "", email := "", photoURL := "", role := ""
                isPremium := v, uid := none, createdAt := 0, updatedAt := now }]

/-- `PATCH /biodatas/:id` (after `authenticate`, multer single
`profileImage`): id validation, existence check, owner-or-admin check,
image upload (degrades to the existing URL on failure), `isPremium`
resolution (explicit body value wins, else the CALLER's user record, else
false), full replace, then the premium sync-back onto the CALLER's user
record (upsert). -/
def updateBiodata (db : DB) (caller idStr : String) (p : BiodataPayload)
    (file : Option (Option String)) (now : Nat) : Nat × DB :=
  if isValidObjectId idStr = false then (400, db)
  else
    match db.members.find? (fun m => decide (m._id = BsonId.oid idStr)) with
    | none => (404, db)
    | some ex =>
      if isAdminB db caller = false ∧ lowerStr ex.email ≠ lowerStr caller then
        (403, db)
      else
        (200, { db with
          members := updateFirst (fun m => decide (m._id = BsonId.oid idStr))
            (fun _ => buildUpdatedBiodata ex p (updateImg ex file)
              (resolvedPremium db caller p) caller now) db.members
          users := upsertUserPremium db.users caller
            (resolvedPremium db caller p) now })

/-- `POST /favourites` (after `authenticate`): `biodata_id` must be a plain
string (that is the `Favourite.biodata_id` type; empty string is falsy and
rejected), duplicate pair check (exact match), insert. -/
def addFavourite (db : DB) (caller bid : String) (now : Nat) : Nat × DB :=
  if bid = "" then (400, db)
  else
    match db.favourites.find?
        (fun f => f.userEmail == caller && f.biodata_id == bid) with
    | some _ => (400, db)
    | none =>
      (201, { db with favourites := db.favourites ++
        [{ userEmail := caller, biodata_id := bid, addedAt := now }] })

/-- `GET /favourites?email=`: `$match` on the user email (case-insensitive
regex), then `$lookup` from `members` with `localField: biodata_id`
(a string) and `foreignField: _id` (an ObjectId); the joined list is the
set of members whose `_id` equals the favourite's string `biodata_id` as a
BSON value. -/
def listFavourites (db : DB) (emailQ : String) :
    Nat × List (Favourite × List Biodata) :=
  let email := lowerStr emailQ
  if email = "" then (400, [])
  else
    let favs := db.favourites.filter (fun f => emailEq f.userEmail email)
    (200, favs.map (fun f =>
      (f, db.members.filter (fun m => decide (m._id = BsonId.str f.biodata_id)))))

/-- The denormalisation invariant of the spec: every biodata's `isPremium`
agrees with the `isPremium` of every user record owning it (the user whose
email equals the biodata's email, case-insensitively). -/
def premiumInvariant (db : DB) : Prop :=
  ∀ m ∈ db.members, ∀ u ∈ db.users,
    emailEq u.email m.email = true → u.isPremium = m.isPremium

instance (db : DB) : Decidable (premiumInvariant db) := by
  unfold premiumInvariant; infer_instance

/-- Modelled from the spec (claim C2's wording), for comparison with the
code's `effectivePremium`: "prefer Biodata.isPremium if a biodata exists
for the caller, else fall back to User.isPremium, else false". -/
def specEffectivePremium (db : DB) (email : String) : Bool :=
  match db.members.find? (fun m => emailEq m.email email) with
  | some m => m.isPremium
  | none => ((findUser db email).map User.isPremium).getD false

/-! ### Generic lemmas about the store operations -/

theorem emailEq_iff {a b : String} : emailEq a b = true ↔ lowerStr a = lowerStr b := by
  simp [emailEq]

theorem updateFirst_nil (p : α → Bool) (f : α → α) : updateFirst p f [] = [] := rfl

theorem updateFirst_cons (p : α → Bool) (f : α → α) (x : α) (xs : List α) :
    updateFirst p f (x :: xs) =
      if p x then f x :: xs else x :: updateFirst p f xs := rfl

/-- When at most one element of the list satisfies the predicate (pairwise,
no two elements both match), updating the first match is the same as
updating every match pointwise. -/
theorem updateFirst_eq_map (p : α → Bool) (f : α → α) :
    ∀ l : List α, l.Pairwise (fun a b => ¬(p a = true ∧ p b = true)) →
      updateFirst p f l = l.map (fun x => if p x then f x else x)
  | [], _ => rfl
  | x :: xs, h => by
    rcases List.pairwise_cons.mp h with ⟨hx, hxs⟩
    rw [updateFirst_cons, List.map_cons]
    by_cases hp : p x = true
    · rw [if_pos hp, if_pos hp]
      have hmap : xs.map (fun a => if p a then f a else a) = xs := by
        conv_rhs => rw [← List.map_id xs]
        apply List.map_congr_left
        intro a ha
        have hna : ¬ p a = true := fun hpa => hx a ha ⟨hp, hpa⟩
        simp [hna]
      rw [hmap]
    · rw [if_neg hp, if_neg hp]
      rw [updateFirst_eq_map p f xs hxs]

/-- Finding by the same predicate after updating the first match returns the
updated document, provided the update preserves the predicate. -/
theorem find?_updateFirst (p : α → Bool) (f : α → α)
    (hf : ∀ a, p a = true → p (f a) = true) :
    ∀ l : List α, (updateFirst p f l).find? p = (l.find? p).map f
  | [] => rfl
  | x :: xs => by
    rw [updateFirst_cons]
    by_cases hp : p x = true
    · rw [if_pos hp, List.find?_cons_of_pos _ (hf x hp),
        List.find?_cons_of_pos _ hp]
      rfl
    · rw [if_neg hp, List.find?_cons_of_neg _ hp, List.find?_cons_of_neg _ hp]
      exact find?_updateFirst p f hf xs

/-- Membership after updating the first match: every element is either an
untouched original or the image of an original that matched. -/
theorem mem_updateFirst (p : α → Bool) (f : α → α) :
    ∀ {l : List α} {y : α}, y ∈ updateFirst p f l →
      y ∈ l ∨ ∃ x ∈ l, p x = true ∧ y = f x
  | [], y, h => by simp [updateFirst_nil] at h
  | x :: xs, y, h => by
    rw [updateFirst_cons] at h
    by_cases hp : p x = true
    · rw [if_pos hp] at h
      rcases List.mem_cons.mp h with h1 | h1
      · exact Or.inr ⟨x, List.mem_cons_self x xs, hp, h1⟩
      · exact Or.inl (List.mem_cons_of_mem x h1)
    · rw [if_neg hp] at h
      rcases List.mem_cons.mp h with h1 | h1
      · exact Or.inl (h1 ▸ List.mem_cons_self x xs)
      · rcases mem_updateFirst p f h1 with h' | ⟨z, hz, hpz, hy⟩
        · exact Or.inl (List.mem_cons_of_mem x h')
        · exact Or.inr ⟨z, List.mem_cons_of_mem x hz, hpz, hy⟩

/-- Searching an appended list when the front part has no match. -/
theorem find?_append_none {p : α → Bool} :
    ∀ {l₁ : List α} (l₂ : List α), l₁.find? p = none →
      (l₁ ++ l₂).find? p = l₂.find? p
  | [], _, _ => rfl
  | x :: xs, l₂, h => by
    rcases List.find?_eq_none.mp h x (List.mem_cons_self x xs) with hx
    have hx' : p x = false := by simpa using hx
    rw [List.cons_append, List.find?_cons_of_neg _ (by simp [hx'])]
    exact find?_append_none l₂ (by
      rw [List.find?_cons_of_neg _ (by simp [hx'])] at h
      exact h)

/-! ### Concrete fixtures used by witnesses and counterexamples -/

/-- A valid 24-hex ObjectId string. -/
def idA : String := "aaaaaaaaaaaaaaaaaaaaaaaa"

/-- A second valid 24-hex ObjectId string. -/
def idB : String := "bbbbbbbbbbbbbbbbbbbbbbbb"

/-- Test user record. -/
def mkUser (e r : String) (prem : Bool) : User :=
  { name := "", email := e, photoURL := "", role := r, isPremium := prem
    uid := none, createdAt := 0, updatedAt := 0 }

/-- Test biodata record. -/
def mkBiodata (idStr e : String) (prem : Bool) (created : Nat) : Biodata :=
  { _id := BsonId.oid idStr, biodataType := "", name := "", dob := ""
    height := "", weight := "", age := 0, occupation := "", race := ""
    fatherName := "", motherName := "", permanentDivision := ""
    presentDivision := "", partnerAge := "", partnerHeight := ""
    partnerWeight := "", contactEmail := "", mobileNumber := ""
    maritalStatus := "", profileImage := "img", isPremium := prem
    email := e, createdAt := created, updatedAt := created }

/-- Test contact request. -/
def mkRequest (idStr e bid status : String) (created : Nat) : ContactRequest :=
  { _id := idStr, requesterEmail := e, requestedBiodataId := bid
    status := status, createdAt := created, approvedAt := none
    rejectedAt := none }

/-- Store with a caller whose biodata says `isPremium: false` while the
user record says `isPremium: true`. -/
def dbSplitPremium : DB :=
  { users := [mkUser "a" "user" true]
    members := [mkBiodata idA "a" false 1]
    favourites := [], contactRequests := [] }

/-- Store with a premium user `a` (user record only). -/
def dbPremiumA : DB :=
  { users := [mkUser "a" "user" true], members := []
    favourites := [], contactRequests := [] }

/-- Store with a non-premium user `b`. -/
def dbFreeB : DB :=
  { users := [mkUser "b" "user" false], members := []
    favourites := [], contactRequests := [] }

/-- Store with a non-premium user `b` who owns a biodata. -/
def dbWithBio : DB :=
  { users := [mkUser "b" "user" false]
    members := [mkBiodata idA "b" false 3]
    favourites := [], contactRequests := [] }

/-- Store with only an admin user `ad`. -/
def dbAdminOnly : DB :=
  { users := [mkUser "ad" "admin" false], members := []
    favourites := [], contactRequests := [] }

/-- Store with an admin `ad` and a regular user `b`. -/
def dbAdminUser : DB :=
  { users := [mkUser "ad" "admin" false, mkUser "b" "user" false]
    members := [], favourites := [], contactRequests := [] }

/-- Store with a single pending contact request. -/
def dbPendingReq : DB :=
  { users := [], members := [], favourites := []
    contactRequests := [mkRequest idA "a" idB "pending" 0] }

/-- Store for the ListMine scenario: caller `a` has one pending and one
approved request (the approved one references an existing biodata), and a
third request belongs to someone else. -/
def dbMyReqs : DB :=
  { users := [mkUser "a" "user" true]
    members := [mkBiodata idA "b" false 3]
    favourites := []
    contactRequests := [mkRequest "r1" "a" idB "pending" 5,
                        mkRequest "r2" "a" idA "approved" 9,
                        mkRequest "r3" "c" idA "pending" 7] }

/-! ### Claim C2 -/

/-- C2, counterexample: a caller whose biodata exists with
`isPremium: false` while the user record says `isPremium: true` has
effective premium `false` under the claim's preference formula, yet
`POST /contact-requests` succeeds (201) and inserts a record — the code
falls back to the user record even when a biodata exists, so the claim as
stated is false. -/
theorem contactRequest_gate_specFormula_counterexample :
    specEffectivePremium dbSplitPremium "a" = false
    ∧ (createContactRequest dbSplitPremium "a" idB "r1" 7).1 = 201
    ∧ (createContactRequest dbSplitPremium "a" idB "r1" 7).2.contactRequests.length
        = dbSplitPremium.contactRequests.length + 1 := by decide

/-- C2 (amended): for every authenticated caller whose effective premium as
the code computes it — the caller's biodata `isPremium` if that is true,
otherwise the user record's `isPremium`, otherwise false — is false,
`POST /contact-requests` (with a non-empty biodataId) returns 403 Forbidden
and leaves the store unchanged, inserting no record. -/
theorem contactRequest_premium_gate (db : DB) (caller bid newId : String)
    (now : Nat) (hbid : bid ≠ "")
    (hp : effectivePremium db caller = false) :
    createContactRequest db caller bid newId now = (403, db) := by
  unfold createContactRequest
  rw [if_neg hbid, if_pos hp]

/-- C2 witness: the gate theorem applied to a concrete non-premium caller. -/
theorem contactRequest_premium_gate_witness :
    createContactRequest dbFreeB "b" idA "r1" 7 = (403, dbFreeB) :=
  contactRequest_premium_gate dbFreeB "b" idA "r1" 7 (by decide) (by decide)

/-! ### Claim C3 -/

/-- C3, counterexample: the second `Create` for the same pair reports the
duplicate with HTTP 400, not 409 — the spec's error taxonomy maps
`Conflict` to 409, so "the second returns Conflict" fails on the code. -/
theorem contactRequest_duplicate_status_counterexample :
    (createContactRequest
      (createContactRequest dbPremiumA "a" idB "r1" 1).2 "a" idB "r2" 2).1 = 400
    ∧ (createContactRequest
      (createContactRequest dbPremiumA "a" idB "r1" 1).2 "a" idB "r2" 2).1 ≠ 409 := by
  decide

/-- C3 (amended): for every `(requesterEmail, biodataId)` pair with no
existing request, two successive `Create` calls by a premium requester
behave as: the first succeeds (201) and inserts a record with
`status = pending` and `createdAt = now`; the second returns 400 (the
duplicate-request error; not the 409 the spec's Conflict taxonomy assigns)
leaving the store unchanged, which afterwards contains exactly one record
for that pair. -/
theorem contactRequest_create_twice (db : DB)
    (caller bid newId1 newId2 : String) (t1 t2 : Nat) (hbid : bid ≠ "")
    (hprem : effectivePremium db caller = true)
    (hnone : db.contactRequests.find? (pairMatches caller bid) = none) :
    (createContactRequest db caller bid newId1 t1).1 = 201
    ∧ ((createContactRequest db caller bid newId1 t1).2.contactRequests.filter
        (pairMatches caller bid)).length = 1
    ∧ (∃ r ∈ (createContactRequest db caller bid newId1 t1).2.contactRequests,
        pairMatches caller bid r = true ∧ r.status = "pending" ∧ r.createdAt = t1)
    ∧ createContactRequest (createContactRequest db caller bid newId1 t1).2
        caller bid newId2 t2
      = (400, (createContactRequest db caller bid newId1 t1).2) := by
  have hnp : ¬ effectivePremium db caller = false := by simp [hprem]
  have hstep : createContactRequest db caller bid newId1 t1 =
      (201, { db with contactRequests :=
        db.contactRequests ++ [newRequest newId1 caller bid t1] }) := by
    unfold createContactRequest
    rw [if_neg hbid, if_neg hnp, hnone]
  have hpairnew : pairMatches caller bid (newRequest newId1 caller bid t1) = true := by
    simp [pairMatches, newRequest]
  have hfilter : db.contactRequests.filter (pairMatches caller bid) = [] := by
    rw [List.filter_eq_nil_iff]
    intro a ha
    simpa using List.find?_eq_none.mp hnone a ha
  have hfind1 : (db.contactRequests ++
      [newRequest newId1 caller bid t1]).find? (pairMatches caller bid)
      = some (newRequest newId1 caller bid t1) := by
    rw [find?_append_none _ hnone, List.find?_cons_of_pos _ hpairnew]
  refine ⟨by rw [hstep], ?_, ?_, ?_⟩
  · rw [hstep]
    show ((db.contactRequests ++
      [newRequest newId1 caller bid t1]).filter (pairMatches caller bid)).length = 1
    rw [List.filter_append, hfilter]
    simp [hpairnew]
  · rw [hstep]
    exact ⟨newRequest newId1 caller bid t1,
      List.mem_append_right _ (List.mem_singleton_self _), hpairnew, rfl, rfl⟩
  · rw [hstep]
    show createContactRequest
      { db with contactRequests :=
        db.contactRequests ++ [newRequest newId1 caller bid t1] }
      caller bid newId2 t2 = _
    unfold createContactRequest
    rw [if_neg hbid]
    rw [if_neg (show ¬ effectivePremium
      { db with contactRequests :=
        db.contactRequests ++ [newRequest newId1 caller bid t1] }
      caller = false from hnp)]
    rw [show ({ db with contactRequests :=
        db.contactRequests ++ [newRequest newId1 caller bid t1] } : DB).contactRequests
      = db.contactRequests ++ [newRequest newId1 caller bid t1] from rfl]
    rw [hfind1]

/-- C3 witness: the two-call theorem applied to a concrete premium caller
and fresh pair. -/
theorem contactRequest_create_twice_witness :
    (createContactRequest dbPremiumA "a" idB "r1" 1).1 = 201
    ∧ ((createContactRequest dbPremiumA "a" idB "r1" 1).2.contactRequests.filter
        (pairMatches "a" idB)).length = 1
    ∧ (∃ r ∈ (createContactRequest dbPremiumA "a" idB "r1" 1).2.contactRequests,
        pairMatches "a" idB r = true ∧ r.status = "pending" ∧ r.createdAt = 1)
    ∧ createContactRequest (createContactRequest dbPremiumA "a" idB "r1" 1).2
        "a" idB "r2" 2
      = (400, (createContactRequest dbPremiumA "a" idB "r1" 1).2) :=
  contactRequest_create_twice dbPremiumA "a" idB "r1" "r2" 1 2
    (by decide) (by decide) (by decide)

/-! ### Claim C4 -/

/-- C4, counterexample: approving an already-approved request overwrites
`approvedAt` with the later call's `new Date()` — after approving at time 1
and again at time 2 the stored timestamp is 2, not the original 1, so the
claimed idempotence fails on the code. -/
theorem approve_timestamp_counterexample :
    (findRequest (approveRequest (approveRequest dbPendingReq idA 1).2 idA 2).2 idA).map
      ContactRequest.approvedAt = some (some 2)
    ∧ (findRequest (approveRequest dbPendingReq idA 1).2 idA).map
      ContactRequest.approvedAt = some (some 1)
    ∧ ¬ ((some (some 2) : Option (Option Nat)) = some (some 1)) := by decide

/-- C4 (amended): for every existing contact request (pending included), an
admin Approve (resp. Reject) call transitions it to `approved`
(resp. `rejected`) and sets `approvedAt` (resp. `rejectedAt`) to the call
time; there is no terminal-state guard, so repeating the call overwrites
the timestamp with the repeat call's time — the timestamp changes whenever
the repeat happens at a different time. -/
theorem contactRequest_terminal_timestamps (db : DB) (idStr : String)
    (r0 : ContactRequest) (t1 t2 : Nat)
    (hval : isValidObjectId idStr = true)
    (hfind : findRequest db idStr = some r0)
    (_hpend : r0.status = "pending") :
    (approveRequest db idStr t1).1 = 200
    ∧ findRequest (approveRequest db idStr t1).2 idStr
        = some { r0 with status := "approved", approvedAt := some t1 }
    ∧ findRequest (approveRequest (approveRequest db idStr t1).2 idStr t2).2 idStr
        = some { r0 with status := "approved", approvedAt := some t2 }
    ∧ (rejectRequest db idStr t1).1 = 200
    ∧ findRequest (rejectRequest db idStr t1).2 idStr
        = some { r0 with status := "rejected", rejectedAt := some t1 }
    ∧ findRequest (rejectRequest (rejectRequest db idStr t1).2 idStr t2).2 idStr
        = some { r0 with status := "rejected", rejectedAt := some t2 } := by
  have hvne : ¬ isValidObjectId idStr = false := by simp [hval]
  have hstepA : ∀ (d : DB) (r : ContactRequest) (t : Nat),
      findRequest d idStr = some r →
      approveRequest d idStr t =
        (200, { d with contactRequests := approveUpdate idStr t d.contactRequests })
      ∧ findRequest (approveRequest d idStr t).2 idStr =
          some { r with status := "approved", approvedAt := some t } := by
    intro d r t hfr
    have heq : approveRequest d idStr t =
        (200, { d with contactRequests := approveUpdate idStr t d.contactRequests }) := by
      unfold approveRequest
      rw [if_neg hvne, if_neg (by simp [hfr])]
    refine ⟨heq, ?_⟩
    rw [heq]
    show (approveUpdate idStr t d.contactRequests).find? (fun q => q._id == idStr) = _
    unfold approveUpdate
    rw [find?_updateFirst (fun q : ContactRequest => q._id == idStr)
      (fun q : ContactRequest => { q with status := "approved", approvedAt := some t })
      (fun a ha => ha)]
    unfold findRequest at hfr
    rw [hfr]
    rfl
  have hstepR : ∀ (d : DB) (r : ContactRequest) (t : Nat),
      findRequest d idStr = some r →
      rejectRequest d idStr t =
        (200, { d with contactRequests := rejectUpdate idStr t d.contactRequests })
      ∧ findRequest (rejectRequest d idStr t).2 idStr =
          some { r with status := "rejected", rejectedAt := some t } := by
    intro d r t hfr
    have heq : rejectRequest d idStr t =
        (200, { d with contactRequests := rejectUpdate idStr t d.contactRequests }) := by
      unfold rejectRequest
      rw [if_neg hvne, if_neg (by simp [hfr])]
    refine ⟨heq, ?_⟩
    rw [heq]
    show (rejectUpdate idStr t d.contactRequests).find? (fun q => q._id == idStr) = _
    unfold rejectUpdate
    rw [find?_updateFirst (fun q : ContactRequest => q._id == idStr)
      (fun q : ContactRequest => { q with status := "rejected", rejectedAt := some t })
      (fun a ha => ha)]
    unfold findRequest at hfr
    rw [hfr]
    rfl
  obtain ⟨h1eq, h1f⟩ := hstepA db r0 t1 hfind
  obtain ⟨_, h2f⟩ := hstepA (approveRequest db idStr t1).2 _ t2 h1f
  obtain ⟨h3eq, h3f⟩ := hstepR db r0 t1 hfind
  obtain ⟨_, h4f⟩ := hstepR (rejectRequest db idStr t1).2 _ t2 h3f
  exact ⟨by rw [h1eq], h1f, h2f, by rw [h3eq], h3f, h4f⟩

/-- C4 witness: the transition theorem applied to a concrete pending
request, approving/rejecting at times 1 and then 2. -/
theorem contactRequest_terminal_timestamps_witness :
    (approveRequest dbPendingReq idA 1).1 = 200
    ∧ findRequest (approveRequest dbPendingReq idA 1).2 idA
        = some { mkRequest idA "a" idB "pending" 0 with
                 status := "approved", approvedAt := some 1 }
    ∧ findRequest (approveRequest (approveRequest dbPendingReq idA 1).2 idA 2).2 idA
        = some { mkRequest idA "a" idB "pending" 0 with
                 status := "approved", approvedAt := some 2 }
    ∧ (rejectRequest dbPendingReq idA 1).1 = 200
    ∧ findRequest (rejectRequest dbPendingReq idA 1).2 idA
        = some { mkRequest idA "a" idB "pending" 0 with
                 status := "rejected", rejectedAt := some 1 }
    ∧ findRequest (rejectRequest (rejectRequest dbPendingReq idA 1).2 idA 2).2 idA
        = some { mkRequest idA "a" idB "pending" 0 with
                 status := "rejected", rejectedAt := some 2 } :=
  contactRequest_terminal_timestamps dbPendingReq idA
    (mkRequest idA "a" idB "pending" 0) 1 2 (by decide) (by decide) rfl

/-- Characterisation of the success path of `PATCH /biodatas/:id`: with a
valid id, an existing biodata, and a caller passing the owner-or-admin
check, the handler returns 200, replaces the matched biodata with the
rebuilt document, and runs the premium upsert against the caller's user
record. -/
theorem updateBiodata_success (db : DB) (caller idStr : String)
    (p : BiodataPayload) (file : Option (Option String)) (now : Nat)
    (ex : Biodata)
    (hval : isValidObjectId idStr = true)
    (hfind : db.members.find? (fun m => decide (m._id = BsonId.oid idStr)) = some ex)
    (hauth : ¬(isAdminB db caller = false ∧ lowerStr ex.email ≠ lowerStr caller)) :
    updateBiodata db caller idStr p file now =
      (200, { db with
        members := updateFirst (fun m => decide (m._id = BsonId.oid idStr))
          (fun _ => buildUpdatedBiodata ex p (updateImg ex file)
            (resolvedPremium db caller p) caller now) db.members
        users := upsertUserPremium db.users caller
          (resolvedPremium db caller p) now }) := by
  unfold updateBiodata
  rw [if_neg (by simp [hval]), hfind]
  show (if isAdminB db caller = false ∧ lowerStr ex.email ≠ lowerStr caller
    then (403, db)
    else (200, { db with
      members := updateFirst (fun m => decide (m._id = BsonId.oid idStr))
        (fun _ => buildUpdatedBiodata ex p (updateImg ex file)
          (resolvedPremium db caller p) caller now) db.members
      users := upsertUserPremium db.users caller
        (resolvedPremium db caller p) now })) = _
  rw [if_neg hauth]

/-- After the success path, looking the biodata up by its id returns the
rebuilt document. -/
theorem updateBiodata_find (db : DB) (caller idStr : String)
    (p : BiodataPayload) (file : Option (Option String)) (now : Nat)
    (ex : Biodata)
    (hval : isValidObjectId idStr = true)
    (hfind : db.members.find? (fun m => decide (m._id = BsonId.oid idStr)) = some ex)
    (hauth : ¬(isAdminB db caller = false ∧ lowerStr ex.email ≠ lowerStr caller)) :
    (updateBiodata db caller idStr p file now).2.members.find?
        (fun m => decide (m._id = BsonId.oid idStr))
      = some (buildUpdatedBiodata ex p (updateImg ex file)
          (resolvedPremium db caller p) caller now) := by
  have hexid : ex._id = BsonId.oid idStr := by
    have h := List.find?_some hfind
    simpa using h
  rw [updateBiodata_success db caller idStr p file now ex hval hfind hauth]
  show (updateFirst (fun m => decide (m._id = BsonId.oid idStr))
    (fun _ => buildUpdatedBiodata ex p (updateImg ex file)
      (resolvedPremium db caller p) caller now) db.members).find?
    (fun m => decide (m._id = BsonId.oid idStr)) = _
  rw [find?_updateFirst (fun m : Biodata => decide (m._id = BsonId.oid idStr))
    (fun _ => buildUpdatedBiodata ex p (updateImg ex file)
      (resolvedPremium db caller p) caller now)
    (fun _ _ => decide_eq_true hexid)]
  rw [hfind]
  rfl

/-! ### Claim C8 -/

/-- C8: if the external image upload fails during `POST /biodatas`, the
operation aborts with an error (500 from the catch-all) and no biodata is
inserted (the store is unchanged); if it fails during `PATCH /biodatas/:id`
the update still succeeds (200) and the stored `profileImage` keeps the
previously existing URL. -/
theorem imageUploadFailure_paths (db : DB) (caller : String)
    (p : BiodataPayload) (idStr newId : String) (ex : Biodata) (now : Nat) :
    (caller ≠ "" →
      db.members.find? (fun m => emailEq m.email (lowerStr caller)) = none →
      createBiodata db caller p (some none) newId now = (500, db))
    ∧ (isValidObjectId idStr = true →
      db.members.find? (fun m => decide (m._id = BsonId.oid idStr)) = some ex →
      ¬(isAdminB db caller = false ∧ lowerStr ex.email ≠ lowerStr caller) →
      (updateBiodata db caller idStr p (some none) now).1 = 200
      ∧ ((updateBiodata db caller idStr p (some none) now).2.members.find?
          (fun m => decide (m._id = BsonId.oid idStr))).map Biodata.profileImage
        = some ex.profileImage) := by
  constructor
  · intro hc hnone
    unfold createBiodata
    rw [if_neg hc, hnone]
  · intro hval hfind hauth
    constructor
    · rw [updateBiodata_success db caller idStr p (some none) now ex hval hfind hauth]
    · rw [updateBiodata_find db caller idStr p (some none) now ex hval hfind hauth]
      rfl

/-- C8 witness: a failed upload during create aborts without insert on a
concrete store; during update of a concrete existing biodata the call
succeeds and the stored image URL is unchanged. -/
theorem imageUploadFailure_paths_witness :
    createBiodata dbFreeB "b" {} (some none) idB 5 = (500, dbFreeB)
    ∧ (updateBiodata dbWithBio "b" idA {} (some none) 5).1 = 200
    ∧ ((updateBiodata dbWithBio "b" idA {} (some none) 5).2.members.find?
        (fun m => decide (m._id = BsonId.oid idA))).map Biodata.profileImage
      = some (mkBiodata idA "b" false 3).profileImage := by
  refine ⟨?_, ?_, ?_⟩
  · exact (imageUploadFailure_paths dbFreeB "b" {} idA idB
      (mkBiodata idA "b" false 3) 5).1 (by decide) (by decide)
  · exact ((imageUploadFailure_paths dbWithBio "b" {} idA idB
      (mkBiodata idA "b" false 3) 5).2 (by decide) (by decide) (by decide)).1
  · exact ((imageUploadFailure_paths dbWithBio "b" {} idA idB
      (mkBiodata idA "b" false 3) 5).2 (by decide) (by decide) (by decide)).2

/-! ### Claim C9 -/

/-- C9: every successful `PATCH /biodatas/:id` preserves the stored
biodata's owner email and `createdAt` (and its `_id`), for every payload —
the handler never reads `email` or `createdAt` from the request body; the
canonicity hypotheses record that stored biodatas carry a lowercased email
and a non-zero creation time, as every record written by this service
does. -/
theorem updateBiodata_preserves_owner_createdAt (db : DB)
    (caller idStr : String) (p : BiodataPayload)
    (file : Option (Option String)) (now : Nat) (ex : Biodata)
    (hval : isValidObjectId idStr = true)
    (hfind : db.members.find? (fun m => decide (m._id = BsonId.oid idStr)) = some ex)
    (hauth : ¬(isAdminB db caller = false ∧ lowerStr ex.email ≠ lowerStr caller))
    (hcan : lowerStr ex.email = ex.email) (hcre : ex.createdAt ≠ 0) :
    (updateBiodata db caller idStr p file now).1 = 200
    ∧ ∃ u, (updateBiodata db caller idStr p file now).2.members.find?
          (fun m => decide (m._id = BsonId.oid idStr)) = some u
        ∧ u.email = ex.email ∧ u.createdAt = ex.createdAt ∧ u._id = ex._id := by
  constructor
  · rw [updateBiodata_success db caller idStr p file now ex hval hfind hauth]
  · refine ⟨buildUpdatedBiodata ex p (updateImg ex file)
      (resolvedPremium db caller p) caller now,
      updateBiodata_find db caller idStr p file now ex hval hfind hauth,
      hcan, ?_, rfl⟩
    show (if ex.createdAt = 0 then now else ex.createdAt) = ex.createdAt
    rw [if_neg hcre]

/-- C9 witness: a concrete update with a payload that tries to look like it
changes everything still keeps the owner email, `createdAt` and `_id`. -/
theorem updateBiodata_preserves_witness :
    (updateBiodata dbWithBio "b" idA
      { name := some "x", email := some "evil", createdAt := some 99 }
      (some (some "newurl")) 5).1 = 200
    ∧ ∃ u, (updateBiodata dbWithBio "b" idA
        { name := some "x", email := some "evil", createdAt := some 99 }
        (some (some "newurl")) 5).2.members.find?
          (fun m => decide (m._id = BsonId.oid idA)) = some u
        ∧ u.email = (mkBiodata idA "b" false 3).email
        ∧ u.createdAt = (mkBiodata idA "b" false 3).createdAt
        ∧ u._id = (mkBiodata idA "b" false 3)._id :=
  updateBiodata_preserves_owner_createdAt dbWithBio "b" idA
    { name := some "x", email := some "evil", createdAt := some 99 }
    (some (some "newurl")) 5 (mkBiodata idA "b" false 3)
    (by decide) (by decide) (by decide) (by decide) (by decide)

/-- The enrichment of `GET /my-contact-requests` never changes the request
itself. -/
theorem enrichMine_request (db : DB) (r : ContactRequest) :
    (enrichMine db r).request = r := by
  unfold enrichMine
  by_cases h : (r.status == "approved") = true
  · rw [if_pos h]
  · rw [if_neg h]

/-- Symmetry of the case-insensitive email comparison. -/
theorem emailEq_symmL {a b : String} (h : emailEq a b = true) : emailEq b a = true := by
  rw [emailEq_iff] at h ⊢; exact h.symm

theorem setPremium_keeps_invariant (db : DB) (now : Nat)
    (hinv : premiumInvariant db)
    (hu : db.users.Pairwise (fun a b => ¬ emailEq a.email b.email = true))
    (hm : db.members.Pairwise (fun a b => ¬ emailEq a.email b.email = true))
    (e0 : String) (v : Bool) :
    premiumInvariant (setPremium db e0 v now).2 := by
  dsimp only [setPremium]
  split
  · exact hinv
  · split
    · exact hinv
    · -- main branch
      have huP : db.users.Pairwise (fun a b =>
          ¬(emailEq a.email (lowerStr e0) = true ∧ emailEq b.email (lowerStr e0) = true)) := by
        refine hu.imp ?_
        intro a b hab hc
        rcases hc with ⟨ha, hb⟩
        rw [emailEq_iff] at ha hb
        exact hab (emailEq_iff.mpr (ha.trans hb.symm))
      have hmP : db.members.Pairwise (fun a b =>
          ¬(emailEq a.email (lowerStr e0) = true ∧ emailEq b.email (lowerStr e0) = true)) := by
        refine hm.imp ?_
        intro a b hab hc
        rcases hc with ⟨ha, hb⟩
        rw [emailEq_iff] at ha hb
        exact hab (emailEq_iff.mpr (ha.trans hb.symm))
      intro m' hm' u' hu' heq
      have hm'2 : m' ∈ updateFirst (fun m => emailEq m.email (lowerStr e0))
          (fun m => { m with isPremium := v, updatedAt := now }) db.members := hm'
      have hu'2 : u' ∈ updateFirst (fun u => emailEq u.email (lowerStr e0))
          (fun u => { u with isPremium := v, updatedAt := now }) db.users := hu'
      rw [updateFirst_eq_map (fun m : Biodata => emailEq m.email (lowerStr e0))
        (fun m : Biodata => { m with isPremium := v, updatedAt := now }) db.members hmP] at hm'2
      rw [updateFirst_eq_map (fun u : User => emailEq u.email (lowerStr e0))
        (fun u : User => { u with isPremium := v, updatedAt := now }) db.users huP] at hu'2
      obtain ⟨m, hmm, hme⟩ := List.mem_map.mp hm'2
      obtain ⟨u, hum, hue⟩ := List.mem_map.mp hu'2
      subst hme
      subst hue
      by_cases hpu : emailEq u.email (lowerStr e0) = true
      · by_cases hpm : emailEq m.email (lowerStr e0) = true
        · rw [if_pos hpu, if_pos hpm]
        · rw [if_pos hpu] at heq
          rw [if_neg hpm] at heq
          exfalso
          have h1 : lowerStr u.email = lowerStr m.email := emailEq_iff.mp heq
          have h2 : lowerStr u.email = lowerStr (lowerStr e0) := emailEq_iff.mp hpu
          exact hpm (emailEq_iff.mpr (h1.symm.trans h2))
      · by_cases hpm : emailEq m.email (lowerStr e0) = true
        · rw [if_neg hpu] at heq
          rw [if_pos hpm] at heq
          exfalso
          have h1 : lowerStr u.email = lowerStr m.email := emailEq_iff.mp heq
          have h2 : lowerStr m.email = lowerStr (lowerStr e0) := emailEq_iff.mp hpm
          exact hpu (emailEq_iff.mpr (h1.trans h2))
        · rw [if_neg hpu, if_neg hpm]
          rw [if_neg hpu, if_neg hpm] at heq
          exact hinv m hmm u hum heq


theorem updateBiodata_keeps_invariant (db : DB) (now : Nat)
    (hinv : premiumInvariant db)
    (hu : db.users.Pairwise (fun a b => ¬ emailEq a.email b.email = true))
    (hm : db.members.Pairwise (fun a b => ¬ emailEq a.email b.email = true))
    (hmid : db.members.Pairwise (fun a b => a._id ≠ b._id))
    (hne : ∀ m ∈ db.members, lowerStr m.email ≠ "")
    (hcanM : ∀ m ∈ db.members, lowerStr m.email = m.email)
    (caller idStr : String) (p : BiodataPayload) (file : Option (Option String))
    (hown : ∀ m ∈ db.members, m._id = BsonId.oid idStr → emailEq caller m.email = true) :
    premiumInvariant (updateBiodata db caller idStr p file now).2 := by
  dsimp only [updateBiodata]
  split
  · exact hinv
  · split
    · exact hinv
    · rename_i ex hex
      split
      · exact hinv
      · have hexmem : ex ∈ db.members := List.mem_of_find?_eq_some hex
        have hexid : ex._id = BsonId.oid idStr := by simpa using List.find?_some hex
        have howner : emailEq caller ex.email = true := hown ex hexmem hexid
        have hcan : lowerStr ex.email = ex.email := hcanM ex hexmem
        have hmidP : db.members.Pairwise (fun a b =>
            ¬(decide (a._id = BsonId.oid idStr) = true ∧ decide (b._id = BsonId.oid idStr) = true)) := by
          refine hmid.imp ?_
          intro a b hab hc
          rcases hc with ⟨ha, hb⟩
          exact hab ((of_decide_eq_true ha).trans (of_decide_eq_true hb).symm)
        intro m' hm' u' hu' heq
        have hm'2 : m' ∈ updateFirst (fun m => decide (m._id = BsonId.oid idStr))
            (fun _ => buildUpdatedBiodata ex p (updateImg ex file)
              (resolvedPremium db caller p) caller now) db.members := hm'
        rw [updateFirst_eq_map (fun m : Biodata => decide (m._id = BsonId.oid idStr))
          (fun _ => buildUpdatedBiodata ex p (updateImg ex file)
            (resolvedPremium db caller p) caller now) db.members hmidP] at hm'2
        obtain ⟨m, hmm, hme⟩ := List.mem_map.mp hm'2
        subst hme
        have hu'2 : u' ∈ upsertUserPremium db.users caller (resolvedPremium db caller p) now := hu'
        unfold upsertUserPremium at hu'2
        by_cases hany : db.users.any (fun u => emailEq u.email caller) = true
        · rw [if_pos hany] at hu'2
          have huP : db.users.Pairwise (fun a b =>
              ¬(emailEq a.email caller = true ∧ emailEq b.email caller = true)) := by
            refine hu.imp ?_
            intro a b hab hc
            rcases hc with ⟨ha, hb⟩
            rw [emailEq_iff] at ha hb
            exact hab (emailEq_iff.mpr (ha.trans hb.symm))
          rw [updateFirst_eq_map (fun u : User => emailEq u.email caller)
            (fun u : User => { u with isPremium := resolvedPremium db caller p, updatedAt := now })
            db.users huP] at hu'2
          obtain ⟨u, hum, hue⟩ := List.mem_map.mp hu'2
          subst hue
          by_cases hpm : decide (m._id = BsonId.oid idStr) = true
          · by_cases hpu : emailEq u.email caller = true
            · rw [if_pos hpm, if_pos hpu]
              rfl
            · rw [if_pos hpm] at heq
              rw [if_neg hpu] at heq
              exfalso
              have h1 : lowerStr u.email = lowerStr (lowerStr ex.email) := emailEq_iff.mp heq
              have h2 : lowerStr u.email = lowerStr ex.email := by rw [hcan] at h1; exact h1
              have h3 : lowerStr caller = lowerStr ex.email := emailEq_iff.mp howner
              exact hpu (emailEq_iff.mpr (h2.trans h3.symm))
          · by_cases hpu : emailEq u.email caller = true
            · rw [if_neg hpm] at heq
              rw [if_pos hpu] at heq
              exfalso
              have h1 : lowerStr u.email = lowerStr m.email := emailEq_iff.mp heq
              have h2 : lowerStr u.email = lowerStr caller := emailEq_iff.mp hpu
              have h3 : lowerStr caller = lowerStr ex.email := emailEq_iff.mp howner
              have h4 : emailEq m.email ex.email = true := emailEq_iff.mpr (h1.symm.trans (h2.trans h3))
              have hmne : m ≠ ex := by
                intro hcontra
                apply hpm
                rw [hcontra]
                exact decide_eq_true hexid
              have hsymm : Symmetric (fun a b : Biodata => ¬ emailEq a.email b.email = true) := by
                intro a b hab hc
                exact hab (emailEq_symmL hc)
              exact (List.Pairwise.forall hsymm hm) hmm hexmem hmne h4
            · rw [if_neg hpm, if_neg hpu]
              rw [if_neg hpm, if_neg hpu] at heq
              exact hinv m hmm u hum heq
        · rw [if_neg hany] at hu'2
          have hany' : db.users.any (fun u => emailEq u.email caller) = false := by
            simpa using hany
          rcases List.mem_append.mp hu'2 with hu3 | hu3
          · by_cases hpm : decide (m._id = BsonId.oid idStr) = true
            · rw [if_pos hpm] at heq
              exfalso
              have h1 : lowerStr u'.email = lowerStr (lowerStr ex.email) := emailEq_iff.mp heq
              have h2 : lowerStr u'.email = lowerStr ex.email := by rw [hcan] at h1; exact h1
              have h3 : lowerStr caller = lowerStr ex.email := emailEq_iff.mp howner
              have h4 : emailEq u'.email caller = true := emailEq_iff.mpr (h2.trans h3.symm)
              have h5 := List.any_eq_false.mp hany' u' hu3
              simp [h4] at h5
            · rw [if_neg hpm]
              rw [if_neg hpm] at heq
              exact hinv m hmm u' hu3 heq
          · have hstub : u' = { name := "", email := "", photoURL := "", role := ""
                                isPremium := resolvedPremium db caller p, uid := none
                                createdAt := 0, updatedAt := now } := by
              simpa using hu3
            subst hstub
            by_cases hpm : decide (m._id = BsonId.oid idStr) = true
            · rw [if_pos hpm] at heq
              exfalso
              have h1 : lowerStr "" = lowerStr (lowerStr ex.email) := emailEq_iff.mp heq
              have h2 : lowerStr "" = lowerStr ex.email := by rw [hcan] at h1; exact h1
              exact hne ex hexmem (h2.symm.trans (rfl : lowerStr "" = ""))
            · rw [if_neg hpm] at heq
              exfalso
              have h1 : lowerStr "" = lowerStr m.email := emailEq_iff.mp heq
              exact hne m hmm (h1.symm.trans (rfl : lowerStr "" = ""))


/-! ### Claim C1 -/

/-- Store where a premium admin `ad` and a non-premium owner `b` coexist,
with `b`'s biodata in sync before the admin edits it. -/
def dbAdminEditsBob : DB :=
  { users := [mkUser "ad" "admin" true, mkUser "b" "user" false]
    members := [mkBiodata idA "b" false 3]
    favourites := [], contactRequests := [] }

/-- C1, counterexample: starting from a synced store, a successful admin
`PATCH /biodatas/:id` on another user's biodata (no explicit `isPremium`
in the body) stamps the ADMIN's premium flag onto the biodata and syncs it
back to the ADMIN's own user record, leaving the owner's user record
untouched — afterwards `Biodata.isPremium = true` while the owning user's
`isPremium = false`, so the claimed invariant fails. -/
theorem premiumInvariant_admin_edit_counterexample :
    premiumInvariant dbAdminEditsBob
    ∧ (updateBiodata dbAdminEditsBob "ad" idA {} none 9).1 = 200
    ∧ ¬ premiumInvariant (updateBiodata dbAdminEditsBob "ad" idA {} none 9).2 := by
  decide

/-- C1 (amended): on a well-formed store (emails unique per collection and
canonical lowercase, biodata ids unique, invariant holding beforehand) the
denormalisation invariant `Biodata.isPremium = User(Biodata.email).isPremium`
is preserved by every admin premium-change (`PATCH /users/:email/premium`)
and by every biodata-update (`PATCH /biodatas/:id`) whose caller owns the
targeted biodata; an admin updating another user's biodata can break it,
because the premium source and the sync-back both use the caller's user
record (see the counterexample). -/
theorem premiumInvariant_mutations (db : DB) (now : Nat)
    (hinv : premiumInvariant db)
    (hu : db.users.Pairwise (fun a b => ¬ emailEq a.email b.email = true))
    (hm : db.members.Pairwise (fun a b => ¬ emailEq a.email b.email = true))
    (hmid : db.members.Pairwise (fun a b => a._id ≠ b._id))
    (hne : ∀ m ∈ db.members, lowerStr m.email ≠ "")
    (hcanM : ∀ m ∈ db.members, lowerStr m.email = m.email) :
    (∀ e v, premiumInvariant (setPremium db e v now).2)
    ∧ (∀ caller idStr p file,
        (∀ m ∈ db.members, m._id = BsonId.oid idStr → emailEq caller m.email = true) →
        premiumInvariant (updateBiodata db caller idStr p file now).2) :=
  ⟨fun e v => setPremium_keeps_invariant db now hinv hu hm e v,
   fun caller idStr p file hown =>
     updateBiodata_keeps_invariant db now hinv hu hm hmid hne hcanM
       caller idStr p file hown⟩

/-- C1 witness: the preservation theorem applied to the concrete synced
store. -/
theorem premiumInvariant_mutations_witness :
    premiumInvariant dbAdminEditsBob
    ∧ ((∀ e v, premiumInvariant (setPremium dbAdminEditsBob e v 9).2)
      ∧ (∀ caller idStr p file,
          (∀ m ∈ dbAdminEditsBob.members,
            m._id = BsonId.oid idStr → emailEq caller m.email = true) →
          premiumInvariant (updateBiodata dbAdminEditsBob caller idStr p file 9).2)) :=
  ⟨by decide, premiumInvariant_mutations dbAdminEditsBob 9 (by decide)
    (by decide) (by decide) (by decide) (by decide) (by decide)⟩

/-! ### Claim C5 -/

/-- C5: for every authenticated caller (whose approved requests carry valid
ObjectIds, as every id accepted by `POST /contact-requests` in practice
is), `GET /my-contact-requests` succeeds and returns exactly the caller's
own contact requests, ordered by `createdAt` descending, and an entry
carries the joined `biodata` field if and only if its status is
`approved` — non-approved entries come back without the enrichment. -/
theorem myContactRequests_spec (db : DB) (caller : String)
    (hvalid : ∀ r ∈ db.contactRequests, r.requesterEmail = caller →
      r.status = "approved" → isValidObjectId r.requestedBiodataId = true) :
    (myContactRequests db caller).1 = 200
    ∧ List.Pairwise (fun a b : EnrichedRequest =>
        b.request.createdAt ≤ a.request.createdAt) (myContactRequests db caller).2
    ∧ ((myContactRequests db caller).2.map EnrichedRequest.request).Perm
        (db.contactRequests.filter (fun r => r.requesterEmail == caller))
    ∧ ∀ e ∈ (myContactRequests db caller).2,
        (e.biodata.isSome = true ↔ e.request.status = "approved") := by
  have hmemfilter : ∀ r ∈ List.insertionSort createdDesc
      (db.contactRequests.filter (fun q => q.requesterEmail == caller)),
      r ∈ db.contactRequests ∧ r.requesterEmail = caller := by
    intro r hr
    have hr' := (List.perm_insertionSort createdDesc
      (db.contactRequests.filter (fun q => q.requesterEmail == caller))).mem_iff.mp hr
    have hm := List.mem_filter.mp hr'
    exact ⟨hm.1, by simpa using hm.2⟩
  have hany : (List.insertionSort createdDesc
      (db.contactRequests.filter (fun q => q.requesterEmail == caller))).any
      (fun r => r.status == "approved" && !isValidObjectId r.requestedBiodataId)
      = false := by
    rw [List.any_eq_false]
    intro r hr
    obtain ⟨hmem, hreq⟩ := hmemfilter r hr
    by_cases hst : r.status = "approved"
    · have hv := hvalid r hmem hreq hst
      simp [hst, hv]
    · simp [hst]
  have hstep : myContactRequests db caller =
      (200, (List.insertionSort createdDesc
        (db.contactRequests.filter (fun q => q.requesterEmail == caller))).map
        (enrichMine db)) := by
    unfold myContactRequests
    rw [if_neg (by rw [hany]; exact Bool.false_ne_true)]
  refine ⟨by rw [hstep], ?_, ?_, ?_⟩
  · rw [hstep]
    show List.Pairwise (fun a b : EnrichedRequest =>
      b.request.createdAt ≤ a.request.createdAt)
      ((List.insertionSort createdDesc
        (db.contactRequests.filter (fun q => q.requesterEmail == caller))).map
        (enrichMine db))
    rw [List.pairwise_map]
    have hs := List.sorted_insertionSort createdDesc
      (db.contactRequests.filter (fun q => q.requesterEmail == caller))
    refine List.Pairwise.imp ?_ hs
    intro a b hab
    simpa [enrichMine_request] using hab
  · rw [hstep]
    show ((List.insertionSort createdDesc
      (db.contactRequests.filter (fun q => q.requesterEmail == caller))).map
      (enrichMine db)).map EnrichedRequest.request
      |>.Perm (db.contactRequests.filter (fun r => r.requesterEmail == caller))
    rw [List.map_map]
    rw [show (EnrichedRequest.request ∘ enrichMine db) = id from
      funext (fun x => enrichMine_request db x)]
    rw [List.map_id]
    exact List.perm_insertionSort createdDesc _
  · intro e he
    rw [hstep] at he
    obtain ⟨r, hr, rfl⟩ := List.mem_map.mp he
    unfold enrichMine
    by_cases hst : (r.status == "approved") = true
    · rw [if_pos hst]
      exact ⟨fun _ => by simpa using hst, fun _ => rfl⟩
    · rw [if_neg hst]
      refine ⟨fun hcontra => absurd hcontra (by simp), fun heq => ?_⟩
      exact absurd (by simpa using heq) hst

/-- C5 witness: the listing theorem evaluated on a caller holding one
pending and one approved request (plus someone else's request that must
not appear). -/
theorem myContactRequests_spec_witness :
    (∀ r ∈ dbMyReqs.contactRequests, r.requesterEmail = "a" →
      r.status = "approved" → isValidObjectId r.requestedBiodataId = true)
    ∧ ((myContactRequests dbMyReqs "a").1 = 200
      ∧ List.Pairwise (fun a b : EnrichedRequest =>
          b.request.createdAt ≤ a.request.createdAt) (myContactRequests dbMyReqs "a").2
      ∧ ((myContactRequests dbMyReqs "a").2.map EnrichedRequest.request).Perm
          (dbMyReqs.contactRequests.filter (fun r => r.requesterEmail == "a"))
      ∧ ∀ e ∈ (myContactRequests dbMyReqs "a").2,
          (e.biodata.isSome = true ↔ e.request.status = "approved")) :=
  ⟨by decide, myContactRequests_spec dbMyReqs "a" (by decide)⟩

/-! ### Claim C6 -/

/-- C6: for an admin caller issuing `PATCH /users/:email/role` with a valid
role value and non-empty target: targeting the caller's own email returns
403 Forbidden with the store unchanged (so the caller's role is
unchanged); targeting any other existing user updates that user's stored
role to the supplied value (status 200). -/
theorem updateUserRole_rules (db : DB) (caller targetParam r : String)
    (now : Nat) (cu : User)
    (hcu : findUser db caller = some cu) (hadmin : cu.role = "admin")
    (hr : r = "admin" ∨ r = "user")
    (hne : lowerStr targetParam ≠ "") :
    (caller = lowerStr targetParam →
      updateUserRole db caller targetParam (some r) now = (403, db))
    ∧ (caller ≠ lowerStr targetParam →
      ∀ tu, findUser db (lowerStr targetParam) = some tu →
      (updateUserRole db caller targetParam (some r) now).1 = 200
      ∧ findUser (updateUserRole db caller targetParam (some r) now).2
          (lowerStr targetParam)
        = some { tu with role := r, updatedAt := now }) := by
  constructor
  · intro hs
    unfold updateUserRole
    simp only [hcu]
    rw [if_neg (show ¬ cu.role ≠ "admin" from fun hc => hc hadmin)]
    rw [if_neg hne]
    rw [if_neg (show ¬¬(r = "admin" ∨ r = "user") from fun hc => hc hr)]
    rw [show findUser db (lowerStr targetParam) = some cu from hs ▸ hcu]
    rw [if_pos hs]
  · intro hs tu htu
    have heq : updateUserRole db caller targetParam (some r) now =
        (200, { db with
          users := updateFirst (fun u => emailEq u.email (lowerStr targetParam))
            (fun u => { u with role := r, updatedAt := now }) db.users }) := by
      unfold updateUserRole
      simp only [hcu]
      rw [if_neg (show ¬ cu.role ≠ "admin" from fun hc => hc hadmin)]
      rw [if_neg hne]
      rw [if_neg (show ¬¬(r = "admin" ∨ r = "user") from fun hc => hc hr)]
      rw [htu]
      rw [if_neg hs]
    refine ⟨by rw [heq], ?_⟩
    rw [heq]
    show (updateFirst (fun u => emailEq u.email (lowerStr targetParam))
      (fun u => { u with role := r, updatedAt := now }) db.users).find?
      (fun u => emailEq u.email (lowerStr targetParam)) = _
    rw [find?_updateFirst (fun u : User => emailEq u.email (lowerStr targetParam))
      (fun u : User => { u with role := r, updatedAt := now }) (fun a ha => ha)]
    unfold findUser at htu
    rw [htu]
    rfl

/-- C6 witness: a concrete admin self-target is refused unchanged; a
concrete other-target has its role updated to the supplied value. -/
theorem updateUserRole_rules_witness :
    updateUserRole dbAdminUser "ad" "ad" (some "user") 5 = (403, dbAdminUser)
    ∧ (updateUserRole dbAdminUser "ad" "b" (some "admin") 5).1 = 200
    ∧ findUser (updateUserRole dbAdminUser "ad" "b" (some "admin") 5).2 "b"
      = some { mkUser "b" "user" false with role := "admin", updatedAt := 5 } := by
  refine ⟨?_, ?_, ?_⟩
  · exact (updateUserRole_rules dbAdminUser "ad" "ad" "user" 5
      (mkUser "ad" "admin" false) (by decide) rfl (Or.inr rfl)
      (by decide)).1 (by decide)
  · exact ((updateUserRole_rules dbAdminUser "ad" "b" "admin" 5
      (mkUser "ad" "admin" false) (by decide) rfl (Or.inl rfl)
      (by decide)).2 (by decide) (mkUser "b" "user" false) (by decide)).1
  · exact ((updateUserRole_rules dbAdminUser "ad" "b" "admin" 5
      (mkUser "ad" "admin" false) (by decide) rfl (Or.inl rfl)
      (by decide)).2 (by decide) (mkUser "b" "user" false) (by decide)).2

/-! ### Claim C7 -/

/-- Store with a favourite whose string `biodata_id` is exactly the hex of
an existing member's ObjectId. -/
def dbFav : DB :=
  { users := [mkUser "a" "user" false]
    members := [mkBiodata idA "b" false 3]
    favourites := [{ userEmail := "a", biodata_id := idA, addedAt := 4 }]
    contactRequests := [] }

/-- C7: evaluation at the failing input. The favourites `$lookup` compares
the favourite's string `biodata_id` against the members' ObjectId `_id`;
the BSON types differ, so even when the referenced biodata exists (the
member whose ObjectId hex equals the stored string) the join result is
empty — the favourite is returned with an empty `biodata` array instead of
the referenced record, contradicting the claim for every favourite whose
reference resolves. (The claim's no-error half does hold: the request
still answers 200.) -/
theorem favourites_join_type_mismatch :
    (∃ m ∈ dbFav.members, m._id = BsonId.oid idA)
    ∧ dbFav.favourites = [{ userEmail := "a", biodata_id := idA, addedAt := 4 }]
    ∧ (listFavourites dbFav "a").1 = 200
    ∧ (listFavourites dbFav "a").2 =
        [({ userEmail := "a", biodata_id := idA, addedAt := 4 }, [])] := by
  decide

/-! ### Claim C10 -/

/-- C10: when `POST /users` is called with a `targetEmail` different from
the authenticated caller's email (which requires the caller to be an
admin) and that email is not taken, the handler succeeds (201) and the
inserted user record stores `uid = null` rather than the caller's uid. -/
theorem createUser_adminTarget_null_uid (db : DB)
    (caller callerUid t : String) (p : UserPayload) (now : Nat) (cu : User)
    (hT : p.targetEmail = some t) (hTne : t ≠ "")
    (hlow : lowerStr t = t) (hdiff : t ≠ lowerStr caller)
    (hcu : findUser db caller = some cu) (hadmin : cu.role = "admin")
    (hnew : db.users.find? (fun u => emailEq u.email t) = none) :
    (createUser db caller callerUid p now).1 = 201
    ∧ ∃ u, (createUser db caller callerUid p now).2.users = db.users ++ [u]
        ∧ u.uid = none ∧ u.email = t := by
  have hstep : createUser db caller callerUid p now
      = createUserInsert db (some (lowerStr t)) none p now := by
    unfold createUser
    simp only [hT, if_neg hTne]
    rw [if_pos (show lowerStr t ≠ lowerStr caller from by rw [hlow]; exact hdiff)]
    rw [hcu]
    show (if cu.role ≠ "admin" then (403, db)
      else createUserInsert db (some (lowerStr t)) none p now) = _
    rw [if_neg (show ¬ cu.role ≠ "admin" from fun hc => hc hadmin)]
  rw [hstep, hlow]
  have hins : createUserInsert db (some t) none p now =
      (201, { db with users := db.users ++
        [{ name := jsOrStr p.name "Unnamed User", email := lowerStr t
           photoURL := jsOrStr p.photoURL "", role := jsOrStr p.role "user"
           isPremium := p.isPremium, uid := none, createdAt := now
           updatedAt := now }] }) := by
    unfold createUserInsert
    show (if t = "" then (400, db)
      else
        match db.users.find? (fun u => emailEq u.email (lowerStr t)) with
        | some _ => (409, db)
        | none =>
          (201, { db with users := db.users ++
            [{ name := jsOrStr p.name "Unnamed User", email := lowerStr t
               photoURL := jsOrStr p.photoURL "", role := jsOrStr p.role "user"
               isPremium := p.isPremium, uid := none, createdAt := now
               updatedAt := now }] })) = _
    rw [if_neg hTne]
    rw [show db.users.find? (fun u => emailEq u.email (lowerStr t)) = none
      from by rw [hlow]; exact hnew]
  rw [hins]
  exact ⟨rfl, _, rfl, rfl, hlow⟩

/-- C10 witness: an admin creating a record for a fresh different email. -/
theorem createUser_adminTarget_null_uid_witness :
    (createUser dbAdminOnly "ad" "uid-ad"
      { targetEmail := some "new" } 5).1 = 201
    ∧ ∃ u, (createUser dbAdminOnly "ad" "uid-ad"
        { targetEmail := some "new" } 5).2.users = dbAdminOnly.users ++ [u]
        ∧ u.uid = none ∧ u.email = "new" :=
  createUser_adminTarget_null_uid dbAdminOnly "ad" "uid-ad" "new"
    { targetEmail := some "new" } 5 (mkUser "ad" "admin" false)
    rfl (by decide) (by decide) (by decide) (by decide) rfl (by decide)

end Matrimonial
